import Mathlib

/-!
Verification development for the Rust-Config-Guardian drift detector
(`src/main.rs`, `src/utils.rs`).

The embedding models:
* `FileHash` — the serialized record of one file (struct `FileHash` in `main.rs`);
* the JSON baseline record written to `snapshot.json` and read back
  (`serde_json::to_string_pretty` / `serde_json::from_str`, modelled at the
  JSON-value level);
* `take_snapshot` — fingerprinting of a directory listing (lines 98-137);
* `compare_with_snapshot` — baseline load, re-fingerprint, drift
  classification and report (lines 139-183);
* `monitor_body` / `monitor_run` — one iteration, resp. a finite trace, of
  the monitor loop (lines 185-208), with time as a `Nat` clock reading.

File contents (byte strings) are modelled as `List Nat`; the SHA-256 digest
is an external library call and is a parameter `hashFn` of the embedding.
-/

/-- The `FileHash` struct of `main.rs` (fields `path`, `hash`). -/
structure FileHash where
  path : String
  hash : String
deriving DecidableEq, Repr

/-- JSON values, as far as the baseline record needs them: `serde_json`
serializes `Vec<FileHash>` as an array of objects with string fields. -/
inductive Json where
  | str : String → Json
  | arr : List Json → Json
  | obj : List (String × Json) → Json

/-- Modelled from the spec: `serde_json` serialization of one `FileHash`
(derived `Serialize`); an object with the struct's field names. The codec
itself is external library code (`serde_json`), not part of `src/`. -/
def serializeFileHash (h : FileHash) : Json :=
  Json.obj [("path", Json.str h.path), ("hash", Json.str h.hash)]

/-- Modelled from the spec: `serde_json` serialization of `Vec<FileHash>`
(a JSON array, in order). -/
def serializeSnapshot (l : List FileHash) : Json :=
  Json.arr (l.map serializeFileHash)

/-- Field lookup in a JSON object (first binding wins, as in `serde`). -/
def lookupField (fields : List (String × Json)) (k : String) : Option Json :=
  (fields.find? (fun f => f.1 == k)).map (fun f => f.2)

/-- Modelled from the spec: `serde_json` deserialization of one `FileHash`
(derived `Deserialize`): an object providing string fields `path` and
`hash`; anything else fails. -/
def deserializeFileHash : Json → Option FileHash
  | Json.obj fields =>
    match lookupField fields "path", lookupField fields "hash" with
    | some (Json.str p), some (Json.str h) => some ⟨p, h⟩
    | _, _ => none
  | _ => none

/-- Modelled from the spec: elementwise deserialization of a JSON array;
one bad element fails the whole parse (as `serde_json` does). -/
def deserializeList : List Json → Option (List FileHash)
  | [] => some []
  | j :: rest =>
    match deserializeFileHash j, deserializeList rest with
    | some fh, some r => some (fh :: r)
    | _, _ => none

/-- Modelled from the spec: `serde_json` deserialization of `Vec<FileHash>`. -/
def deserializeSnapshot : Json → Option (List FileHash)
  | Json.arr items => deserializeList items
  | _ => none

lemma deserialize_serialize_fh (h : FileHash) :
    deserializeFileHash (serializeFileHash h) = some h := rfl

lemma deserialize_serialize (X : List FileHash) :
    deserializeSnapshot (serializeSnapshot X) = some X := by
  induction X with
  | nil => rfl
  | cons h t ih =>
    simp only [serializeSnapshot, List.map_cons, deserializeSnapshot,
      deserializeList, deserialize_serialize_fh]
    simp only [serializeSnapshot, deserializeSnapshot] at ih
    rw [ih]

/-- One entry of the watched directory, as `take_snapshot`'s loop sees it:
an entry that fails to enumerate (`Err(e)` from `read_dir`), a non-regular
entry (subdirectory etc., `path.is_file()` false), a regular file whose
bytes were read, or a regular file whose read failed. -/
inductive DirEntry where
  | enumErr : DirEntry
  | nonFile : String → DirEntry
  | fileOk : String → List Nat → DirEntry
  | fileErr : String → DirEntry
deriving DecidableEq, Repr

/-- `take_snapshot`'s entry loop (`main.rs` lines 108-132): in directory
order, a readable file contributes a `FileHash` with its digest, an
enumeration failure or unreadable file contributes one warning line
(`eprintln!`) and is skipped, a non-regular entry is silently skipped. -/
def snapshotEntries (hashFn : List Nat → String) : List DirEntry → List FileHash × List String
  | [] => ([], [])
  | DirEntry.enumErr :: rest =>
    let r := snapshotEntries hashFn rest
    (r.1, "Warning: Could not read directory entry" :: r.2)
  | DirEntry.nonFile _ :: rest => snapshotEntries hashFn rest
  | DirEntry.fileOk p c :: rest =>
    let r := snapshotEntries hashFn rest
    (⟨p, hashFn c⟩ :: r.1, r.2)
  | DirEntry.fileErr p :: rest =>
    let r := snapshotEntries hashFn rest
    (r.1, ("Warning: Could not read file " ++ p) :: r.2)

/-- The outcome of one `take_snapshot` run: the computed fingerprints, the
per-entry warnings, whether the empty-directory notice was printed
(`main.rs` lines 101-106: it fires iff `read_dir` yields zero entries of
any kind), and the JSON written to `snapshot.json` (lines 134-135). -/
structure SnapshotResult where
  hashes : List FileHash
  warnings : List String
  emptyNotice : Bool
  written : Json

/-- `take_snapshot` (`main.rs` lines 98-137) over a directory listing.
The SHA-256 digest of a file's bytes is the external `sha2` library,
abstracted as the parameter `hashFn`. -/
def take_snapshot (hashFn : List Nat → String) (dir : List DirEntry) : SnapshotResult :=
  let r := snapshotEntries hashFn dir
  { hashes := r.1
    warnings := r.2
    emptyNotice := dir.isEmpty
    written := serializeSnapshot r.1 }

/-- The two baseline-load failures of `compare_with_snapshot` (lines
140-144): `fs::read_to_string` fails (no record) or `serde_json::from_str`
fails (record unparsable). -/
inductive CompareError where
  | baselineMissing : CompareError
  | baselineCorrupt : CompareError
deriving DecidableEq, Repr

/-- The baseline load of `compare_with_snapshot` (lines 140-144): the
durable record is `none` (no `snapshot.json`) or `some` JSON value. -/
def loadSnapshot (stored : Option Json) : Except CompareError (List FileHash) :=
  match stored with
  | none => Except.error CompareError.baselineMissing
  | some j =>
    match deserializeSnapshot j with
    | none => Except.error CompareError.baselineCorrupt
    | some l => Except.ok l

/-- First drift loop (lines 151-159): for each current entry, find its path
in the snapshot; differing hash emits `Changed`, absence emits `New`. -/
def newChangedDrifts (snapshot : List FileHash) : List FileHash → List String
  | [] => []
  | curr :: rest =>
    match List.find? (fun p => p.path == curr.path) snapshot with
    | some prev =>
      if prev.hash != curr.hash then
        ("Changed: " ++ curr.path) :: newChangedDrifts snapshot rest
      else newChangedDrifts snapshot rest
    | none => ("New: " ++ curr.path) :: newChangedDrifts snapshot rest

/-- Second drift loop (lines 162-166): each snapshot entry with no matching
path in the current listing emits `Deleted`. -/
def deletedDrifts (current : List FileHash) : List FileHash → List String
  | [] => []
  | prev :: rest =>
    if current.any (fun c => c.path == prev.path) then deletedDrifts current rest
    else ("Deleted: " ++ prev.path) :: deletedDrifts current rest

/-- The drift report of `compare_with_snapshot` (lines 148-166): the two
loops push into one vector, so the report is their concatenation. -/
def compareDrifts (snapshot current : List FileHash) : List String :=
  newChangedDrifts snapshot current ++ deletedDrifts current snapshot

/-- Everything one `compare_with_snapshot` call does: the operator-visible
lines it prints, the `snapshot.json` content after the call, and the
`Result` it returns (drift lines on success). -/
structure CompareRun where
  printed : List String
  stored : Option Json
  result : Except CompareError (List String)

/-- `compare_with_snapshot` (`main.rs` lines 139-183): load the baseline
(lines 140-144; on failure return the error, nothing printed, disk
untouched), then call `take_snapshot` on the directory — which rewrites
`snapshot.json` (line 146 calling lines 134-135) — classify drifts and
print the report (lines 148-180). -/
def compare_with_snapshot (hashFn : List Nat → String) (dir : List DirEntry)
    (stored : Option Json) : CompareRun :=
  match loadSnapshot stored with
  | Except.error e => { printed := [], stored := stored, result := Except.error e }
  | Except.ok snapshot =>
    let snap := take_snapshot hashFn dir
    let drifts := compareDrifts snapshot snap.hashes
    let report :=
      if drifts.isEmpty then ["No drift detected."]
      else "Drift detected:" :: drifts.map (fun d => "  " ++ d)
    { printed := (if snap.emptyNotice then ["Warning: Directory is empty."] else [])
        ++ snap.warnings ++ report
      stored := some snap.written
      result := Except.ok drifts }

/-- One `rx.recv()` outcome in the monitor loop (lines 196-206):
`Ok(Ok(event))`, `Ok(Err(e))` (watch error), or `Err(e)` (the channel is
closed — `recv` on an `mpsc` channel fails only when disconnected). -/
inductive RecvMsg where
  | event : RecvMsg
  | watchErr : RecvMsg
  | closed : RecvMsg
deriving DecidableEq, Repr

/-- Monitor-loop state: the `last_check` clock reading (line 192) and the
durable `snapshot.json` the triggered compares read and write. -/
structure MonState where
  last_check : Nat
  stored : Option Json

/-- What one iteration of the `loop` does: continue with a new state
(whether a comparison ran, and the lines printed), or leave the loop.
No arm of the source's `match` breaks or returns, so `exit` is never
produced — which is what claim C4 is about. -/
inductive LoopAction where
  | next : MonState → Bool → List String → LoopAction
  | exit : LoopAction

/-- `DEBOUNCE_INTERVAL` (line 193), in seconds. -/
def DEBOUNCE_INTERVAL : Nat := 2

/-- One iteration of the monitor loop (`main.rs` lines 195-207), at clock
reading `now`. On an event past the debounce interval it prints the change
notice, runs `compare_with_snapshot` *discarding its `Result`*
(`let _ = ...`, line 200), and resets `last_check`; an event inside the
interval is consumed with no effect; watch errors and channel errors are
printed and the loop continues — no arm exits. -/
def monitor_body (hashFn : List Nat → String) (dir : List DirEntry)
    (s : MonState) (now : Nat) (msg : RecvMsg) : LoopAction :=
  match msg with
  | RecvMsg.event =>
    if DEBOUNCE_INTERVAL ≤ now - s.last_check then
      let run := compare_with_snapshot hashFn dir s.stored
      LoopAction.next ⟨now, run.stored⟩ true ("Change detected" :: run.printed)
    else LoopAction.next s false []
  | RecvMsg.watchErr => LoopAction.next s false ["Watch error"]
  | RecvMsg.closed => LoopAction.next s false ["Channel error"]

/-- The monitor loop over a finite trace of received messages, each paired
with the clock reading at which it is handled; `last_check` is initialized
by the caller (`Instant::now()` at line 192). Returns the final state and
the clock readings of the comparisons that executed. -/
def monitor_run (hashFn : List Nat → String) (dir : List DirEntry) :
    List (Nat × RecvMsg) → MonState → MonState × List Nat
  | [], s => (s, [])
  | (t, m) :: rest, s =>
    match monitor_body hashFn dir s t m with
    | LoopAction.next s' ran _ =>
      let r := monitor_run hashFn dir rest s'
      (r.1, if ran then t :: r.2 else r.2)
    | LoopAction.exit => (s, [])

/-- Stand-in content digest used to instantiate the `hashFn` parameter on
concrete inputs; the real SHA-256 lives in the external `sha2` crate. -/
def hashEx (c : List Nat) : String := toString c

/-- Classifier: entries of the listing that are readable regular files. -/
def isReadableFile : DirEntry → Bool
  | DirEntry.fileOk _ _ => true
  | _ => false

/-- Classifier: entries that cannot be enumerated or read. -/
def isUnreadableEntry : DirEntry → Bool
  | DirEntry.enumErr => true
  | DirEntry.fileErr _ => true
  | _ => false

/-- Classifier: entries that are regular files (readable or not). -/
def isRegularFile : DirEntry → Bool
  | DirEntry.fileOk _ _ => true
  | DirEntry.fileErr _ => true
  | _ => false

/-- The fingerprint a single listing entry contributes, if any. -/
def fingerprintOf (hashFn : List Nat → String) : DirEntry → Option FileHash
  | DirEntry.fileOk p c => some ⟨p, hashFn c⟩
  | _ => none

/-- Whether a loop action leaves the monitor loop. -/
def LoopAction.isExit : LoopAction → Bool
  | LoopAction.exit => true
  | LoopAction.next _ _ _ => false

lemma snapshotEntries_spec (hashFn : List Nat → String) (dir : List DirEntry) :
    (snapshotEntries hashFn dir).1 = dir.filterMap (fingerprintOf hashFn)
    ∧ (snapshotEntries hashFn dir).1.length = dir.countP isReadableFile
    ∧ (snapshotEntries hashFn dir).2.length = dir.countP isUnreadableEntry := by
  induction dir with
  | nil => exact ⟨rfl, rfl, rfl⟩
  | cons e rest ih =>
    obtain ⟨ih1, ih2, ih3⟩ := ih
    have ih2' : (List.filterMap (fingerprintOf hashFn) rest).length
        = List.countP isReadableFile rest := ih1 ▸ ih2
    cases e <;>
      simp [snapshotEntries, List.filterMap_cons, fingerprintOf, List.countP_cons,
        isReadableFile, isUnreadableEntry, ih1, ih2, ih3, ih2']

/-- Claim C6: for a directory listing with N readable regular files and M
unreadable entries, `take_snapshot` produces exactly N fingerprints (those
of the readable files, in order) and exactly M warnings; unreadable entries
are excluded but never abort the (total) operation. -/
theorem c6_partial_failure_resilience (hashFn : List Nat → String) (dir : List DirEntry) :
    (take_snapshot hashFn dir).hashes.length = dir.countP isReadableFile
    ∧ (take_snapshot hashFn dir).warnings.length = dir.countP isUnreadableEntry
    ∧ (take_snapshot hashFn dir).hashes = dir.filterMap (fingerprintOf hashFn) := by
  obtain ⟨h1, h2, h3⟩ := snapshotEntries_spec hashFn dir
  exact ⟨h2, h3, h1⟩

/-- Claim C7, counterexample: a directory whose only entry is a
subdirectory has zero regular files, and `take_snapshot` does produce an
empty collection — but the informational warning is NOT surfaced, because
the code's emptiness test (line 103) counts all entries, not regular
files. -/
theorem c7_counterexample :
    isRegularFile (DirEntry.nonFile "subdir") = false
    ∧ (take_snapshot hashEx [DirEntry.nonFile "subdir"]).hashes = []
    ∧ (take_snapshot hashEx [DirEntry.nonFile "subdir"]).emptyNotice = false :=
  ⟨rfl, rfl, rfl⟩

/-- Claim C7, amended: for a directory with zero regular files the
fingerprinting operation succeeds with an empty collection, but the
informational empty-directory warning is surfaced exactly when the
directory has zero entries of ANY kind; a directory containing only
non-regular entries (e.g. subdirectories) gets no warning. -/
theorem c7_empty_directory (hashFn : List Nat → String) (dir : List DirEntry)
    (h : ∀ e ∈ dir, isRegularFile e = false) :
    (take_snapshot hashFn dir).hashes = []
    ∧ ((take_snapshot hashFn dir).emptyNotice = true ↔ dir = []) := by
  constructor
  · have h1 := (snapshotEntries_spec hashFn dir).1
    have : ∀ e ∈ dir, fingerprintOf hashFn e = none := by
      intro e he
      cases e with
      | fileOk p c => exact absurd (h _ he) (by simp [isRegularFile])
      | enumErr => rfl
      | nonFile p => rfl
      | fileErr p => rfl
    simp only [take_snapshot, h1]
    exact List.filterMap_eq_nil_iff.mpr this
  · simp [take_snapshot, List.isEmpty_iff]

/-- Claim C7 amended, witness at the only-subdirectory listing. -/
theorem c7_empty_directory_witness :
    (∀ e ∈ [DirEntry.nonFile "subdir"], isRegularFile e = false)
    ∧ ((take_snapshot hashEx [DirEntry.nonFile "subdir"]).hashes = []
      ∧ ((take_snapshot hashEx [DirEntry.nonFile "subdir"]).emptyNotice = true
          ↔ [DirEntry.nonFile "subdir"] = [])) :=
  ⟨by decide, c7_empty_directory hashEx [DirEntry.nonFile "subdir"] (by decide)⟩

/-- Claim C9: loading the record produced by saving a collection X (with
unique paths) reconstructs a collection equivalent to X as a set of
path-to-digest pairs. -/
theorem c9_save_load_roundtrip (X : List FileHash) (_hX : (X.map FileHash.path).Nodup) :
    ∃ Y, deserializeSnapshot (serializeSnapshot X) = some Y
      ∧ ∀ fh : FileHash, fh ∈ Y ↔ fh ∈ X :=
  ⟨X, deserialize_serialize X, fun _ => Iff.rfl⟩

/-- Claim C9, witness at a two-file collection. -/
theorem c9_save_load_roundtrip_witness :
    (([⟨"a.txt", "d1"⟩, ⟨"b.txt", "d2"⟩] : List FileHash).map FileHash.path).Nodup
    ∧ ∃ Y, deserializeSnapshot (serializeSnapshot [⟨"a.txt", "d1"⟩, ⟨"b.txt", "d2"⟩]) = some Y
        ∧ ∀ fh : FileHash, fh ∈ Y ↔ fh ∈ ([⟨"a.txt", "d1"⟩, ⟨"b.txt", "d2"⟩] : List FileHash) :=
  ⟨by decide, c9_save_load_roundtrip [⟨"a.txt", "d1"⟩, ⟨"b.txt", "d2"⟩] (by decide)⟩

/-- Claim C5: the load step fails with the baseline-missing condition
exactly when no record exists, with the baseline-corrupt condition exactly
when the record exists but does not parse into the expected shape, and
`compare_with_snapshot` returns exactly the load error (a reported
`Result`, not a crash — the function is total). -/
theorem c5_load_error_conditions (stored : Option Json) (hashFn : List Nat → String)
    (dir : List DirEntry) (e : CompareError) :
    (loadSnapshot stored = Except.error CompareError.baselineMissing ↔ stored = none)
    ∧ (loadSnapshot stored = Except.error CompareError.baselineCorrupt
        ↔ ∃ j, stored = some j ∧ deserializeSnapshot j = none)
    ∧ ((compare_with_snapshot hashFn dir stored).result = Except.error e
        ↔ loadSnapshot stored = Except.error e) := by
  refine ⟨?_, ?_, ?_⟩
  · cases stored with
    | none => simp [loadSnapshot]
    | some j =>
      cases hj : deserializeSnapshot j <;> simp [loadSnapshot, hj]
  · cases stored with
    | none => simp [loadSnapshot]
    | some j =>
      cases hj : deserializeSnapshot j <;> simp [loadSnapshot, hj]
  · cases hl : loadSnapshot stored with
    | error e' => simp [compare_with_snapshot, hl]
    | ok snapshot => simp [compare_with_snapshot, hl]

/-- Claim C1 (code defect): `compare_with_snapshot` DOES write durable
storage. With baseline `[{"./a.txt", "0ldd1gest"}]` on disk and the file
now hashing differently, the compare run succeeds, reports the change, and
leaves `snapshot.json` holding the serialized CURRENT fingerprints (digest
`hashEx [104, 105]`), not the original baseline — so the baseline is
silently replaced and a second compare would report no drift. -/
theorem c1_compare_overwrites_baseline :
    (compare_with_snapshot hashEx [DirEntry.fileOk "./a.txt" [104, 105]]
        (some (serializeSnapshot [⟨"./a.txt", "0ldd1gest"⟩]))).result
      = Except.ok ["Changed: ./a.txt"]
    ∧ (compare_with_snapshot hashEx [DirEntry.fileOk "./a.txt" [104, 105]]
        (some (serializeSnapshot [⟨"./a.txt", "0ldd1gest"⟩]))).stored
      = some (serializeSnapshot [⟨"./a.txt", hashEx [104, 105]⟩])
    ∧ (((compare_with_snapshot hashEx [DirEntry.fileOk "./a.txt" [104, 105]]
          (some (serializeSnapshot [⟨"./a.txt", "0ldd1gest"⟩]))).stored.bind
            deserializeSnapshot
        == (some (serializeSnapshot [⟨"./a.txt", "0ldd1gest"⟩])).bind
            deserializeSnapshot)
        = false) :=
  ⟨rfl, rfl, by decide⟩

/-- Claim C4, counterexample: when the notification channel is closed
(`rx.recv()` returns `Err`), the loop body prints a channel-error line and
CONTINUES — it does not exit; no arm of the loop's `match` breaks out. -/
theorem c4_counterexample :
    (monitor_body hashEx [] ⟨0, none⟩ 0 RecvMsg.closed).isExit = false
    ∧ monitor_body hashEx [] ⟨0, none⟩ 0 RecvMsg.closed
      = LoopAction.next ⟨0, none⟩ false ["Channel error"] :=
  ⟨rfl, rfl⟩

/-- Claim C4, amended: neither a transient watch error nor permanent
closure of the notification channel terminates the monitor loop; both are
merely reported and the loop keeps waiting (on a closed channel this means
it busy-loops on immediately returned channel errors). No received message
makes the loop body exit. -/
theorem c4_no_message_exits_loop (hashFn : List Nat → String) (dir : List DirEntry)
    (s : MonState) (t : Nat) (m : RecvMsg) :
    (monitor_body hashFn dir s t m).isExit = false
    ∧ monitor_body hashFn dir s t RecvMsg.closed
      = LoopAction.next s false ["Channel error"]
    ∧ monitor_body hashFn dir s t RecvMsg.watchErr
      = LoopAction.next s false ["Watch error"] := by
  refine ⟨?_, rfl, rfl⟩
  cases m with
  | event =>
    by_cases h : DEBOUNCE_INTERVAL ≤ t - s.last_check <;>
      simp [monitor_body, h, LoopAction.isExit]
  | watchErr => rfl
  | closed => rfl

/-- Claim C8, counterexample: with no baseline on disk, a comparison cycle
triggered inside the monitor loop hits the baseline-missing error, but the
loop discards the compare `Result` (`let _ =`, line 200): the only
operator-visible line of the cycle is the change notice — the error and its
message are silently dropped, and the loop goes on. -/
theorem c8_counterexample :
    (compare_with_snapshot hashEx [] (none : Option Json)).result
      = Except.error CompareError.baselineMissing
    ∧ monitor_body hashEx [] ⟨0, none⟩ 5 RecvMsg.event
      = LoopAction.next ⟨5, none⟩ true ["Change detected"] :=
  ⟨rfl, rfl⟩

/-- Claim C8, amended: a baseline-level error is reported only by the
one-shot compare operation, whose returned `Result` carries it to `main`;
inside the monitor loop the compare `Result` is discarded, so a failing
cycle's only operator-visible output is the change notice and the loop
continues with `last_check` reset and the baseline untouched. -/
theorem c8_monitor_discards_baseline_errors (hashFn : List Nat → String)
    (dir : List DirEntry) (s : MonState) (t : Nat) (e : CompareError)
    (htrig : DEBOUNCE_INTERVAL ≤ t - s.last_check)
    (herr : (compare_with_snapshot hashFn dir s.stored).result = Except.error e) :
    monitor_body hashFn dir s t RecvMsg.event
      = LoopAction.next ⟨t, s.stored⟩ true ["Change detected"]
    ∧ (compare_with_snapshot hashFn dir s.stored).printed = [] := by
  have hload : loadSnapshot s.stored = Except.error e := by
    rcases hl : loadSnapshot s.stored with e' | snapshot
    · have : (compare_with_snapshot hashFn dir s.stored).result = Except.error e' := by
        simp [compare_with_snapshot, hl]
      rw [this] at herr
      exact congrArg Except.error (Except.error.inj herr)
    · have : (compare_with_snapshot hashFn dir s.stored).result
          = Except.ok (compareDrifts snapshot (take_snapshot hashFn dir).hashes) := by
        simp [compare_with_snapshot, hl]
      rw [this] at herr
      exact absurd herr (by simp)
  have hrun : compare_with_snapshot hashFn dir s.stored
      = { printed := [], stored := s.stored, result := Except.error e } := by
    simp [compare_with_snapshot, hload]
  constructor
  · simp [monitor_body, htrig, hrun]
  · simp [hrun]

/-- Claim C8 amended, witness: missing baseline, event at time 5. -/
theorem c8_monitor_discards_baseline_errors_witness :
    DEBOUNCE_INTERVAL ≤ 5 - (⟨0, none⟩ : MonState).last_check
    ∧ (compare_with_snapshot hashEx [] (⟨0, none⟩ : MonState).stored).result
      = Except.error CompareError.baselineMissing
    ∧ (monitor_body hashEx [] ⟨0, none⟩ 5 RecvMsg.event
        = LoopAction.next ⟨5, (⟨0, none⟩ : MonState).stored⟩ true ["Change detected"]
      ∧ (compare_with_snapshot hashEx [] (⟨0, none⟩ : MonState).stored).printed = []) :=
  ⟨by decide, rfl,
    c8_monitor_discards_baseline_errors hashEx [] ⟨0, none⟩ 5
      CompareError.baselineMissing (by decide) rfl⟩


lemma monitor_run_event_pos (hashFn : List Nat → String) (dir : List DirEntry)
    (t0 : Nat) (rest : List (Nat × RecvMsg)) (s : MonState)
    (h : DEBOUNCE_INTERVAL ≤ t0 - s.last_check) :
    monitor_run hashFn dir ((t0, RecvMsg.event) :: rest) s
      = ((monitor_run hashFn dir rest
            ⟨t0, (compare_with_snapshot hashFn dir s.stored).stored⟩).1,
          t0 :: (monitor_run hashFn dir rest
            ⟨t0, (compare_with_snapshot hashFn dir s.stored).stored⟩).2) := by
  simp [monitor_run, monitor_body, h]

lemma monitor_run_event_neg (hashFn : List Nat → String) (dir : List DirEntry)
    (t0 : Nat) (rest : List (Nat × RecvMsg)) (s : MonState)
    (h : ¬ DEBOUNCE_INTERVAL ≤ t0 - s.last_check) :
    monitor_run hashFn dir ((t0, RecvMsg.event) :: rest) s
      = monitor_run hashFn dir rest s := by
  simp [monitor_run, monitor_body, h]

lemma monitor_run_watchErr (hashFn : List Nat → String) (dir : List DirEntry)
    (t0 : Nat) (rest : List (Nat × RecvMsg)) (s : MonState) :
    monitor_run hashFn dir ((t0, RecvMsg.watchErr) :: rest) s
      = monitor_run hashFn dir rest s := by
  simp [monitor_run, monitor_body]

lemma monitor_run_closed (hashFn : List Nat → String) (dir : List DirEntry)
    (t0 : Nat) (rest : List (Nat × RecvMsg)) (s : MonState) :
    monitor_run hashFn dir ((t0, RecvMsg.closed) :: rest) s
      = monitor_run hashFn dir rest s := by
  simp [monitor_run, monitor_body]

lemma monitor_times_lb (hashFn : List Nat → String) (dir : List DirEntry) :
    ∀ (trace : List (Nat × RecvMsg)) (s : MonState) (t : Nat),
      t ∈ (monitor_run hashFn dir trace s).2 → s.last_check + DEBOUNCE_INTERVAL ≤ t := by
  intro trace
  induction trace with
  | nil => intro s t ht; simp [monitor_run] at ht
  | cons p rest ih =>
    intro s t ht
    obtain ⟨t0, m⟩ := p
    cases m with
    | event =>
      by_cases h : DEBOUNCE_INTERVAL ≤ t0 - s.last_check
      · rw [monitor_run_event_pos hashFn dir t0 rest s h] at ht
        rcases List.mem_cons.mp ht with rfl | ht'
        · have hD : DEBOUNCE_INTERVAL = 2 := rfl
          omega
        · have := ih ⟨t0, (compare_with_snapshot hashFn dir s.stored).stored⟩ _ ht'
          simp only at this
          have hD : DEBOUNCE_INTERVAL = 2 := rfl
          omega
      · rw [monitor_run_event_neg hashFn dir t0 rest s h] at ht
        exact ih s t ht
    | watchErr =>
      rw [monitor_run_watchErr hashFn dir t0 rest s] at ht
      exact ih s t ht
    | closed =>
      rw [monitor_run_closed hashFn dir t0 rest s] at ht
      exact ih s t ht

lemma monitor_run_times_nil (hashFn : List Nat → String) (dir : List DirEntry) :
    ∀ (trace : List (Nat × RecvMsg)) (s : MonState),
      (∀ p ∈ trace, p.1 < s.last_check + DEBOUNCE_INTERVAL) →
      (monitor_run hashFn dir trace s).2 = [] := by
  intro trace
  induction trace with
  | nil => intro s _; rfl
  | cons p rest ih =>
    intro s hwin
    obtain ⟨t0, m⟩ := p
    have ht0 : t0 < s.last_check + DEBOUNCE_INTERVAL := hwin ⟨t0, m⟩ (by simp)
    have hrest : ∀ q ∈ rest, q.1 < s.last_check + DEBOUNCE_INTERVAL :=
      fun q hq => hwin q (List.mem_cons_of_mem _ hq)
    cases m with
    | event =>
      have h : ¬ DEBOUNCE_INTERVAL ≤ t0 - s.last_check := by
        have hD : DEBOUNCE_INTERVAL = 2 := rfl
        omega
      rw [monitor_run_event_neg hashFn dir t0 rest s h]
      exact ih s hrest
    | watchErr =>
      rw [monitor_run_watchErr hashFn dir t0 rest s]
      exact ih s hrest
    | closed =>
      rw [monitor_run_closed hashFn dir t0 rest s]
      exact ih s hrest

/-- Claim C10: because `last_check` is initialized to the clock reading at
monitor start (line 192), no comparison ever executes at a clock reading
strictly within the debounce interval of the start `t0`; every executed
comparison happens at time at least `t0 + DEBOUNCE_INTERVAL`. -/
theorem c10_startup_suppression (hashFn : List Nat → String) (dir : List DirEntry)
    (stored : Option Json) (t0 : Nat) (trace : List (Nat × RecvMsg)) :
    ∀ t ∈ (monitor_run hashFn dir trace ⟨t0, stored⟩).2, t0 + DEBOUNCE_INTERVAL ≤ t :=
  fun t ht => monitor_times_lb hashFn dir trace ⟨t0, stored⟩ t ht

/-- Claim C10, witness: a single event at time 5 (past the interval) does
run a comparison, whose time is bounded below as the claim states. -/
theorem c10_startup_suppression_witness :
    5 ∈ (monitor_run hashEx [] [(5, RecvMsg.event)] ⟨0, none⟩).2
    ∧ 0 + DEBOUNCE_INTERVAL ≤ 5 :=
  ⟨by decide, c10_startup_suppression hashEx [] none 0 [(5, RecvMsg.event)] 5 (by decide)⟩

/-- Claim C3, counterexample: five change events all within one second of
monitor start (debounce interval 2 s) trigger ZERO comparisons, not one:
`last_check` starts at the loop's start time, so the whole burst falls in
the initial suppression window. -/
theorem c3_counterexample :
    (monitor_run hashEx []
      [(0, RecvMsg.event), (0, RecvMsg.event), (0, RecvMsg.event),
        (1, RecvMsg.event), (1, RecvMsg.event)] ⟨0, none⟩).2.length = 0 := by
  decide

/-- Claim C3, amended: an event arriving before the debounce interval has
elapsed since the later of monitor start and the last comparison is
consumed and dropped (same state, no comparison, nothing deferred); a burst
of change events whose first member arrives once the interval has elapsed
and whose remainder falls within the interval after it (e.g. 5 events
within 1 s against a 2 s interval) triggers exactly one comparison. -/
theorem c3_debounce_rate_limit (hashFn : List Nat → String) (dir : List DirEntry)
    (s : MonState) (tEvt t1 : Nat) (rest : List (Nat × RecvMsg))
    (hdrop : tEvt - s.last_check < DEBOUNCE_INTERVAL)
    (hfirst : DEBOUNCE_INTERVAL ≤ t1 - s.last_check)
    (hwin : ∀ p ∈ rest, p.1 < t1 + DEBOUNCE_INTERVAL) :
    monitor_body hashFn dir s tEvt RecvMsg.event = LoopAction.next s false []
    ∧ (monitor_run hashFn dir ((t1, RecvMsg.event) :: rest) s).2.length = 1 := by
  constructor
  · have hD : DEBOUNCE_INTERVAL = 2 := rfl
    simp [monitor_body, show ¬ DEBOUNCE_INTERVAL ≤ tEvt - s.last_check by omega]
  · rw [monitor_run_event_pos hashFn dir t1 rest s hfirst]
    rw [monitor_run_times_nil hashFn dir rest
      ⟨t1, (compare_with_snapshot hashFn dir s.stored).stored⟩ (by simpa using hwin)]
    rfl

/-- Claim C3 amended, witness: a dropped event at time 1 and a burst of 5
events at times 2..3 after a start at time 0. -/
theorem c3_debounce_rate_limit_witness :
    1 - (⟨0, none⟩ : MonState).last_check < DEBOUNCE_INTERVAL
    ∧ DEBOUNCE_INTERVAL ≤ 2 - (⟨0, none⟩ : MonState).last_check
    ∧ (∀ p ∈ [((2 : Nat), RecvMsg.event), (2, RecvMsg.event), (3, RecvMsg.event),
          (3, RecvMsg.event)], p.1 < 2 + DEBOUNCE_INTERVAL)
    ∧ (monitor_body hashEx [] ⟨0, none⟩ 1 RecvMsg.event
        = LoopAction.next ⟨0, none⟩ false []
      ∧ (monitor_run hashEx []
          ((2, RecvMsg.event) :: [((2 : Nat), RecvMsg.event), (2, RecvMsg.event),
            (3, RecvMsg.event), (3, RecvMsg.event)]) ⟨0, none⟩).2.length = 1) :=
  ⟨by decide, by decide, by decide,
    c3_debounce_rate_limit hashEx [] ⟨0, none⟩ 1 2
      [((2 : Nat), RecvMsg.event), (2, RecvMsg.event), (3, RecvMsg.event),
        (3, RecvMsg.event)]
      (by decide) (by decide) (by decide)⟩

/-- The record (if any) the first drift loop emits for one current entry. -/
def newChangedRecord (snapshot : List FileHash) (curr : FileHash) : Option String :=
  match List.find? (fun p => p.path == curr.path) snapshot with
  | some prev =>
    if prev.hash != curr.hash then some ("Changed: " ++ curr.path) else none
  | none => some ("New: " ++ curr.path)

/-- The record (if any) the second drift loop emits for one baseline entry. -/
def deletedRecord (current : List FileHash) (prev : FileHash) : Option String :=
  if current.any (fun c => c.path == prev.path) then none
  else some ("Deleted: " ++ prev.path)

lemma newChangedDrifts_eq (snapshot current : List FileHash) :
    newChangedDrifts snapshot current
      = current.filterMap (newChangedRecord snapshot) := by
  induction current with
  | nil => rfl
  | cons c rest ih =>
    simp only [newChangedDrifts, List.filterMap_cons, newChangedRecord]
    cases h : List.find? (fun p => p.path == c.path) snapshot with
    | none => simp [ih]
    | some prev =>
      by_cases hh : (prev.hash != c.hash) = true
      · simp [hh, ih]
      · simp [hh, ih]

lemma deletedDrifts_eq (current snapshot : List FileHash) :
    deletedDrifts current snapshot
      = snapshot.filterMap (deletedRecord current) := by
  induction snapshot with
  | nil => rfl
  | cons p rest ih =>
    simp only [deletedDrifts, List.filterMap_cons, deletedRecord]
    by_cases h : (current.any fun c => c.path == p.path) = true
    · simp [h, ih]
    · simp [h, ih]

lemma compareDrifts_eq (snapshot current : List FileHash) :
    compareDrifts snapshot current
      = current.filterMap (newChangedRecord snapshot)
        ++ snapshot.filterMap (deletedRecord current) := by
  rw [compareDrifts, newChangedDrifts_eq, deletedDrifts_eq]

lemma tag_append_inj {t p q : String} (h : t ++ p = t ++ q) : p = q := by
  have hd := congrArg String.data h
  rw [String.data_append, String.data_append] at hd
  exact String.ext (List.append_cancel_left hd)

lemma tag_append_ne {a b : Char} {ta tb : List Char} {s t : String} (hab : a ≠ b)
    (hs : s.data = a :: ta) (ht : t.data = b :: tb) (p q : String) :
    s ++ p ≠ t ++ q := by
  intro h
  have hd := congrArg String.data h
  rw [String.data_append, String.data_append, hs, ht,
    List.cons_append, List.cons_append] at hd
  injection hd with h1 _
  exact hab h1

lemma changed_ne_new (p q : String) : "Changed: " ++ p ≠ "New: " ++ q :=
  tag_append_ne (by decide)
    (show ("Changed: " : String).data = 'C' :: ("hanged: " : String).data from rfl)
    (show ("New: " : String).data = 'N' :: ("ew: " : String).data from rfl) p q

lemma changed_ne_deleted (p q : String) : "Changed: " ++ p ≠ "Deleted: " ++ q :=
  tag_append_ne (by decide)
    (show ("Changed: " : String).data = 'C' :: ("hanged: " : String).data from rfl)
    (show ("Deleted: " : String).data = 'D' :: ("eleted: " : String).data from rfl) p q

lemma new_ne_deleted (p q : String) : "New: " ++ p ≠ "Deleted: " ++ q :=
  tag_append_ne (by decide)
    (show ("New: " : String).data = 'N' :: ("ew: " : String).data from rfl)
    (show ("Deleted: " : String).data = 'D' :: ("eleted: " : String).data from rfl) p q

lemma count_filterMap_eq_countP {α β : Type} [BEq β] [LawfulBEq β]
    (g : α → Option β) (b : β) :
    ∀ l : List α, (l.filterMap g).count b = l.countP (fun a => g a == some b) := by
  intro l
  induction l with
  | nil => rfl
  | cons x rest ih =>
    rw [List.filterMap_cons, List.countP_cons]
    cases hx : g x with
    | none =>
      have hb : ((fun a => g a == some b) x) = false := by simp [hx]
      simp [hb, ih]
    | some c =>
      rw [List.count_cons, ih]
      have hb : (some c == some b) = (c == b) := by simp
      rw [hb]

lemma countP_eq_one_of_unique {α : Type} (q : α → Bool) :
    ∀ (l : List α), l.Nodup → ∀ x, x ∈ l → q x = true →
      (∀ y ∈ l, q y = true → y = x) → l.countP q = 1 := by
  intro l
  induction l with
  | nil => intro _ x hx; exact absurd hx (List.not_mem_nil x)
  | cons a rest ih =>
    intro hnd x hx hqx huniq
    rw [List.countP_cons]
    rcases List.mem_cons.mp hx with rfl | hx'
    · have h0 : rest.countP q = 0 := by
        rw [List.countP_eq_zero]
        intro y hy hqy
        have hyx := huniq y (List.mem_cons_of_mem _ hy) hqy
        subst hyx
        exact absurd hy (List.nodup_cons.mp hnd).1
      simp [h0, hqx]
    · have hqa : q a = false := by
        cases hqa : q a with
        | false => rfl
        | true =>
          have hax := huniq a (List.mem_cons_self a rest) hqa
          subst hax
          exact absurd hx' (List.nodup_cons.mp hnd).1
      have hrest := ih (List.nodup_cons.mp hnd).2 x hx' hqx
        (fun y hy hqy => huniq y (List.mem_cons_of_mem _ hy) hqy)
      simp [hqa, hrest]


lemma newChangedRecord_some (snapshot : List FileHash) (y : FileHash) (b : String)
    (h : newChangedRecord snapshot y = some b) :
    b = "Changed: " ++ y.path ∨ b = "New: " ++ y.path := by
  cases hf : List.find? (fun p => p.path == y.path) snapshot with
  | none =>
    simp only [newChangedRecord, hf] at h
    exact Or.inr (Option.some.inj h).symm
  | some prev =>
    simp only [newChangedRecord, hf] at h
    by_cases hh : (prev.hash != y.hash) = true
    · rw [if_pos hh] at h
      exact Or.inl (Option.some.inj h).symm
    · rw [if_neg hh] at h
      exact absurd h (by simp)

lemma deletedRecord_some (current : List FileHash) (z : FileHash) (b : String)
    (h : deletedRecord current z = some b) :
    b = "Deleted: " ++ z.path
    ∧ (current.any fun c => c.path == z.path) = false := by
  by_cases ha : (current.any fun c => c.path == z.path) = true
  · rw [deletedRecord, if_pos ha] at h
    exact absurd h (by simp)
  · rw [deletedRecord, if_neg ha] at h
    exact ⟨(Option.some.inj h).symm, by simpa using ha⟩

lemma newChangedRecord_changed (snapshot : List FileHash) (c p : FileHash)
    (hs : (snapshot.map FileHash.path).Nodup) (hp : p ∈ snapshot)
    (hpath : p.path = c.path) (hhash : p.hash ≠ c.hash) :
    newChangedRecord snapshot c = some ("Changed: " ++ c.path) := by
  have hex : (List.find? (fun q => q.path == c.path) snapshot).isSome := by
    rw [List.find?_isSome]
    exact ⟨p, hp, by simp [hpath]⟩
  obtain ⟨z, hz⟩ := Option.isSome_iff_exists.mp hex
  have hzmem := List.mem_of_find?_eq_some hz
  have hzpath : z.path = c.path := by simpa using List.find?_some hz
  have hzp : z = p := List.inj_on_of_nodup_map hs hzmem hp (hzpath.trans hpath.symm)
  subst hzp
  have hbne : (z.hash != c.hash) = true := bne_iff_ne.mpr hhash
  simp only [newChangedRecord, hz]
  rw [if_pos hbne]

lemma newChangedRecord_unchanged (snapshot : List FileHash) (c p : FileHash)
    (hs : (snapshot.map FileHash.path).Nodup) (hp : p ∈ snapshot)
    (hpath : p.path = c.path) (hhash : p.hash = c.hash) :
    newChangedRecord snapshot c = none := by
  have hex : (List.find? (fun q => q.path == c.path) snapshot).isSome := by
    rw [List.find?_isSome]
    exact ⟨p, hp, by simp [hpath]⟩
  obtain ⟨z, hz⟩ := Option.isSome_iff_exists.mp hex
  have hzmem := List.mem_of_find?_eq_some hz
  have hzpath : z.path = c.path := by simpa using List.find?_some hz
  have hzp : z = p := List.inj_on_of_nodup_map hs hzmem hp (hzpath.trans hpath.symm)
  subst hzp
  have hbne : ¬ (z.hash != c.hash) = true := by simp [hhash]
  simp only [newChangedRecord, hz]
  rw [if_neg hbne]

lemma newChangedRecord_new (snapshot : List FileHash) (c : FileHash)
    (hnone : ∀ p ∈ snapshot, p.path ≠ c.path) :
    newChangedRecord snapshot c = some ("New: " ++ c.path) := by
  have hf : List.find? (fun q => q.path == c.path) snapshot = none :=
    List.find?_eq_none.mpr (fun x hx => by simp [hnone x hx])
  simp only [newChangedRecord, hf]

lemma deletedRecord_deleted (current : List FileHash) (p : FileHash)
    (hnone : ∀ c ∈ current, c.path ≠ p.path) :
    deletedRecord current p = some ("Deleted: " ++ p.path) := by
  have ha : (current.any fun c => c.path == p.path) = false := by
    rw [List.any_eq_false]
    intro c hmem
    simp [hnone c hmem]
  rw [deletedRecord, if_neg (by simp [ha])]

lemma deletedRecord_present (current : List FileHash) (p c : FileHash)
    (hc : c ∈ current) (hpath : c.path = p.path) :
    deletedRecord current p = none := by
  have ha : (current.any fun q => q.path == p.path) = true :=
    List.any_eq_true.mpr ⟨c, hc, by simp [hpath]⟩
  rw [deletedRecord, if_pos ha]

lemma newChangedRecord_path_eq (snapshot : List FileHash) (x y : FileHash) (b : String)
    (hb : b = "Changed: " ++ x.path ∨ b = "New: " ++ x.path)
    (hy : newChangedRecord snapshot y = some b) : y.path = x.path := by
  rcases newChangedRecord_some snapshot y b hy with h1 | h1 <;> rcases hb with h2 | h2
  · exact tag_append_inj (h1.symm.trans h2)
  · exact absurd (h1.symm.trans h2) (changed_ne_new y.path x.path)
  · exact absurd (h2.symm.trans h1) (changed_ne_new x.path y.path)
  · exact tag_append_inj (h1.symm.trans h2)

lemma deletedRecord_path_eq (current : List FileHash) (x z : FileHash) (b : String)
    (hb : b = "Deleted: " ++ x.path) (hz : deletedRecord current z = some b) :
    z.path = x.path :=
  tag_append_inj (((deletedRecord_some current z b hz).1).symm.trans hb)

lemma partNC_count (snapshot current : List FileHash)
    (hc : (current.map FileHash.path).Nodup) (x : FileHash) (hx : x ∈ current)
    (b : String) (hb : b = "Changed: " ++ x.path ∨ b = "New: " ++ x.path) :
    (current.filterMap (newChangedRecord snapshot)).count b
      = if newChangedRecord snapshot x = some b then 1 else 0 := by
  rw [count_filterMap_eq_countP]
  by_cases hrec : newChangedRecord snapshot x = some b
  · rw [if_pos hrec]
    apply countP_eq_one_of_unique _ current (List.Nodup.of_map FileHash.path hc) x hx
      (by simp [hrec])
    intro y hy hqy
    have hyb : newChangedRecord snapshot y = some b := by simpa using hqy
    have hpath := newChangedRecord_path_eq snapshot x y b hb hyb
    exact List.inj_on_of_nodup_map hc hy hx hpath
  · rw [if_neg hrec, List.countP_eq_zero]
    intro y hy hqy
    have hyb : newChangedRecord snapshot y = some b := by simpa using hqy
    have hpath := newChangedRecord_path_eq snapshot x y b hb hyb
    have hyx : y = x := List.inj_on_of_nodup_map hc hy hx hpath
    subst hyx
    exact hrec hyb

lemma partNC_count_zero (snapshot current : List FileHash) (b : String)
    (h : ∀ y ∈ current, ¬ newChangedRecord snapshot y = some b) :
    (current.filterMap (newChangedRecord snapshot)).count b = 0 := by
  rw [count_filterMap_eq_countP, List.countP_eq_zero]
  intro y hy hqy
  exact h y hy (by simpa using hqy)

lemma partNC_count_deleted_zero (snapshot current : List FileHash) (t : String) :
    (current.filterMap (newChangedRecord snapshot)).count ("Deleted: " ++ t) = 0 := by
  apply partNC_count_zero
  intro y hy hrec
  rcases newChangedRecord_some snapshot y _ hrec with h1 | h1
  · exact changed_ne_deleted y.path t h1.symm
  · exact new_ne_deleted y.path t h1.symm

lemma partDel_count (current snapshot : List FileHash)
    (hs : (snapshot.map FileHash.path).Nodup) (x : FileHash) (hx : x ∈ snapshot) :
    (snapshot.filterMap (deletedRecord current)).count ("Deleted: " ++ x.path)
      = if deletedRecord current x = some ("Deleted: " ++ x.path) then 1 else 0 := by
  rw [count_filterMap_eq_countP]
  by_cases hrec : deletedRecord current x = some ("Deleted: " ++ x.path)
  · rw [if_pos hrec]
    apply countP_eq_one_of_unique _ snapshot (List.Nodup.of_map FileHash.path hs) x hx
      (by simp [hrec])
    intro z hz hqz
    have hzb : deletedRecord current z = some ("Deleted: " ++ x.path) := by simpa using hqz
    have hpath := deletedRecord_path_eq current x z _ rfl hzb
    exact List.inj_on_of_nodup_map hs hz hx hpath
  · rw [if_neg hrec, List.countP_eq_zero]
    intro z hz hqz
    have hzb : deletedRecord current z = some ("Deleted: " ++ x.path) := by simpa using hqz
    have hpath := deletedRecord_path_eq current x z _ rfl hzb
    have hzx : z = x := List.inj_on_of_nodup_map hs hz hx hpath
    subst hzx
    exact hrec hzb

lemma partDel_count_zero (current snapshot : List FileHash) (b : String)
    (h : ∀ z ∈ snapshot, ¬ deletedRecord current z = some b) :
    (snapshot.filterMap (deletedRecord current)).count b = 0 := by
  rw [count_filterMap_eq_countP, List.countP_eq_zero]
  intro z hz hqz
  exact h z hz (by simpa using hqz)

lemma partDel_count_changed_zero (current snapshot : List FileHash) (t : String) :
    (snapshot.filterMap (deletedRecord current)).count ("Changed: " ++ t) = 0 := by
  apply partDel_count_zero
  intro z hz hrec
  exact changed_ne_deleted t z.path ((deletedRecord_some current z _ hrec).1.symm).symm

lemma partDel_count_new_zero (current snapshot : List FileHash) (t : String) :
    (snapshot.filterMap (deletedRecord current)).count ("New: " ++ t) = 0 := by
  apply partDel_count_zero
  intro z hz hrec
  exact new_ne_deleted t z.path ((deletedRecord_some current z _ hrec).1.symm).symm

lemma counts_changed (snapshot current : List FileHash)
    (hs : (snapshot.map FileHash.path).Nodup) (hc : (current.map FileHash.path).Nodup)
    (c : FileHash) (hcm : c ∈ current) (p : FileHash) (hpm : p ∈ snapshot)
    (hpath : p.path = c.path) (hhash : p.hash ≠ c.hash) :
    (compareDrifts snapshot current).count ("Changed: " ++ c.path) = 1
    ∧ (compareDrifts snapshot current).count ("New: " ++ c.path) = 0
    ∧ (compareDrifts snapshot current).count ("Deleted: " ++ c.path) = 0 := by
  have hrec := newChangedRecord_changed snapshot c p hs hpm hpath hhash
  rw [compareDrifts_eq]
  refine ⟨?_, ?_, ?_⟩
  · rw [List.count_append,
      partNC_count snapshot current hc c hcm _ (Or.inl rfl), if_pos hrec,
      partDel_count_changed_zero]
  · have hne : ¬ newChangedRecord snapshot c = some ("New: " ++ c.path) := by
      rw [hrec]
      intro hcontra
      exact changed_ne_new c.path c.path (Option.some.inj hcontra)
    rw [List.count_append,
      partNC_count snapshot current hc c hcm _ (Or.inr rfl), if_neg hne,
      partDel_count_new_zero]
  · have hmsg : ("Deleted: " ++ c.path) = ("Deleted: " ++ p.path) := by rw [hpath]
    rw [List.count_append, partNC_count_deleted_zero, hmsg,
      partDel_count current snapshot hs p hpm,
      if_neg (by rw [deletedRecord_present current p c hcm hpath.symm]; simp)]

lemma counts_new (snapshot current : List FileHash)
    (hc : (current.map FileHash.path).Nodup)
    (c : FileHash) (hcm : c ∈ current) (hnone : ∀ p ∈ snapshot, p.path ≠ c.path) :
    (compareDrifts snapshot current).count ("New: " ++ c.path) = 1
    ∧ (compareDrifts snapshot current).count ("Changed: " ++ c.path) = 0
    ∧ (compareDrifts snapshot current).count ("Deleted: " ++ c.path) = 0 := by
  have hrec := newChangedRecord_new snapshot c hnone
  rw [compareDrifts_eq]
  refine ⟨?_, ?_, ?_⟩
  · rw [List.count_append,
      partNC_count snapshot current hc c hcm _ (Or.inr rfl), if_pos hrec,
      partDel_count_new_zero]
  · have hne : ¬ newChangedRecord snapshot c = some ("Changed: " ++ c.path) := by
      rw [hrec]
      intro hcontra
      exact changed_ne_new c.path c.path (Option.some.inj hcontra).symm
    rw [List.count_append,
      partNC_count snapshot current hc c hcm _ (Or.inl rfl), if_neg hne,
      partDel_count_changed_zero]
  · rw [List.count_append, partNC_count_deleted_zero]
    rw [partDel_count_zero current snapshot _ ?_]
    intro z hz hrec2
    have hzp := deletedRecord_path_eq current c z _ rfl hrec2
    exact hnone z hz hzp

lemma counts_deleted (snapshot current : List FileHash)
    (hs : (snapshot.map FileHash.path).Nodup)
    (p : FileHash) (hpm : p ∈ snapshot) (hnone : ∀ c ∈ current, c.path ≠ p.path) :
    (compareDrifts snapshot current).count ("Deleted: " ++ p.path) = 1
    ∧ (compareDrifts snapshot current).count ("Changed: " ++ p.path) = 0
    ∧ (compareDrifts snapshot current).count ("New: " ++ p.path) = 0 := by
  have hrec := deletedRecord_deleted current p hnone
  rw [compareDrifts_eq]
  refine ⟨?_, ?_, ?_⟩
  · rw [List.count_append, partNC_count_deleted_zero,
      partDel_count current snapshot hs p hpm, if_pos hrec]
  · rw [List.count_append,
      partNC_count_zero snapshot current _
        (fun y hy hrec2 =>
          hnone y hy (newChangedRecord_path_eq snapshot p y _ (Or.inl rfl) hrec2)),
      partDel_count_changed_zero]
  · rw [List.count_append,
      partNC_count_zero snapshot current _
        (fun y hy hrec2 =>
          hnone y hy (newChangedRecord_path_eq snapshot p y _ (Or.inr rfl) hrec2)),
      partDel_count_new_zero]

lemma counts_unchanged (snapshot current : List FileHash)
    (hs : (snapshot.map FileHash.path).Nodup) (hc : (current.map FileHash.path).Nodup)
    (c : FileHash) (hcm : c ∈ current) (p : FileHash) (hpm : p ∈ snapshot)
    (hpath : p.path = c.path) (hhash : p.hash = c.hash) :
    (compareDrifts snapshot current).count ("Changed: " ++ c.path) = 0
    ∧ (compareDrifts snapshot current).count ("New: " ++ c.path) = 0
    ∧ (compareDrifts snapshot current).count ("Deleted: " ++ c.path) = 0 := by
  have hrec := newChangedRecord_unchanged snapshot c p hs hpm hpath hhash
  rw [compareDrifts_eq]
  refine ⟨?_, ?_, ?_⟩
  · rw [List.count_append,
      partNC_count snapshot current hc c hcm _ (Or.inl rfl),
      if_neg (by rw [hrec]; simp), partDel_count_changed_zero]
  · rw [List.count_append,
      partNC_count snapshot current hc c hcm _ (Or.inr rfl),
      if_neg (by rw [hrec]; simp), partDel_count_new_zero]
  · have hmsg : ("Deleted: " ++ c.path) = ("Deleted: " ++ p.path) := by rw [hpath]
    rw [List.count_append, partNC_count_deleted_zero, hmsg,
      partDel_count current snapshot hs p hpm,
      if_neg (by rw [deletedRecord_present current p c hcm hpath.symm]; simp)]

/-- Claim C2: for baseline and current collections with unique paths, the
drift report consists of the per-current-entry New/Changed records in
`current`'s order followed by the per-baseline-entry Deleted records in
`baseline`'s order; a path present in both with unequal digests gets
exactly one `Changed` record (and no other), a path only in current exactly
one `New` record, a path only in baseline exactly one `Deleted` record, and
a path present in both with equal digests gets no record at all. -/
theorem c2_comparator_completeness (snapshot current : List FileHash)
    (hs : (snapshot.map FileHash.path).Nodup)
    (hc : (current.map FileHash.path).Nodup) :
    compareDrifts snapshot current
      = current.filterMap (newChangedRecord snapshot)
        ++ snapshot.filterMap (deletedRecord current)
    ∧ (∀ c ∈ current, ∀ p ∈ snapshot, p.path = c.path → p.hash ≠ c.hash →
        (compareDrifts snapshot current).count ("Changed: " ++ c.path) = 1
        ∧ (compareDrifts snapshot current).count ("New: " ++ c.path) = 0
        ∧ (compareDrifts snapshot current).count ("Deleted: " ++ c.path) = 0)
    ∧ (∀ c ∈ current, (∀ p ∈ snapshot, p.path ≠ c.path) →
        (compareDrifts snapshot current).count ("New: " ++ c.path) = 1
        ∧ (compareDrifts snapshot current).count ("Changed: " ++ c.path) = 0
        ∧ (compareDrifts snapshot current).count ("Deleted: " ++ c.path) = 0)
    ∧ (∀ p ∈ snapshot, (∀ c ∈ current, c.path ≠ p.path) →
        (compareDrifts snapshot current).count ("Deleted: " ++ p.path) = 1
        ∧ (compareDrifts snapshot current).count ("Changed: " ++ p.path) = 0
        ∧ (compareDrifts snapshot current).count ("New: " ++ p.path) = 0)
    ∧ (∀ c ∈ current, ∀ p ∈ snapshot, p.path = c.path → p.hash = c.hash →
        (compareDrifts snapshot current).count ("Changed: " ++ c.path) = 0
        ∧ (compareDrifts snapshot current).count ("New: " ++ c.path) = 0
        ∧ (compareDrifts snapshot current).count ("Deleted: " ++ c.path) = 0) :=
  ⟨compareDrifts_eq snapshot current,
    fun c hcm p hpm hpath hhash =>
      counts_changed snapshot current hs hc c hcm p hpm hpath hhash,
    fun c hcm hnone => counts_new snapshot current hc c hcm hnone,
    fun p hpm hnone => counts_deleted snapshot current hs p hpm hnone,
    fun c hcm p hpm hpath hhash =>
      counts_unchanged snapshot current hs hc c hcm p hpm hpath hhash⟩

/-- Claim C2, witness: baseline a,b,d against current a,b,c, with a
changed, b unchanged, c new, d deleted. -/
theorem c2_comparator_completeness_witness :
    (([⟨"a", "1"⟩, ⟨"b", "2"⟩, ⟨"d", "4"⟩] : List FileHash).map FileHash.path).Nodup
    ∧ (([⟨"a", "9"⟩, ⟨"b", "2"⟩, ⟨"c", "3"⟩] : List FileHash).map FileHash.path).Nodup
    ∧ (compareDrifts [⟨"a", "1"⟩, ⟨"b", "2"⟩, ⟨"d", "4"⟩]
        [⟨"a", "9"⟩, ⟨"b", "2"⟩, ⟨"c", "3"⟩]).count ("Changed: " ++ "a") = 1
    ∧ (compareDrifts [⟨"a", "1"⟩, ⟨"b", "2"⟩, ⟨"d", "4"⟩]
        [⟨"a", "9"⟩, ⟨"b", "2"⟩, ⟨"c", "3"⟩]).count ("New: " ++ "c") = 1
    ∧ (compareDrifts [⟨"a", "1"⟩, ⟨"b", "2"⟩, ⟨"d", "4"⟩]
        [⟨"a", "9"⟩, ⟨"b", "2"⟩, ⟨"c", "3"⟩]).count ("Deleted: " ++ "d") = 1
    ∧ (compareDrifts [⟨"a", "1"⟩, ⟨"b", "2"⟩, ⟨"d", "4"⟩]
        [⟨"a", "9"⟩, ⟨"b", "2"⟩, ⟨"c", "3"⟩]).count ("Changed: " ++ "b") = 0 := by
  have h := c2_comparator_completeness [⟨"a", "1"⟩, ⟨"b", "2"⟩, ⟨"d", "4"⟩]
    [⟨"a", "9"⟩, ⟨"b", "2"⟩, ⟨"c", "3"⟩] (by decide) (by decide)
  refine ⟨by decide, by decide, ?_, ?_, ?_, ?_⟩
  · exact (h.2.1 ⟨"a", "9"⟩ (by decide) ⟨"a", "1"⟩ (by decide) rfl (by decide)).1
  · exact (h.2.2.1 ⟨"c", "3"⟩ (by decide) (by decide)).1
  · exact (h.2.2.2.1 ⟨"d", "4"⟩ (by decide) (by decide)).1
  · exact (h.2.2.2.2 ⟨"b", "2"⟩ (by decide) ⟨"b", "2"⟩ (by decide) rfl rfl).1
